import Mathlib

/-!
Shallow embedding of `scripts/import_leetcode_data.py`.

Python strings are modelled as `List Char`.  Python's `str.lower` and
`str.title` are modelled on the ASCII letters (the only ones this program
manipulates), `str.strip` strips the ASCII whitespace characters stripped by
Python's default `strip`.  The float `acceptance_rate` (only ever the
constant `0.0`) is modelled as `Rat`.  Operations that can raise a Python
exception are modelled in `Option` / `Except`: an exception corresponds to
`none` / `.error`, and the `try`/`except` blocks of the source become
matches on those values.
-/

/-- Character list of a string literal (Python text values). -/
def chars (s : String) : List Char := s.data

/-- Whitespace recognised by Python's default `str.strip`. -/
def pySpace (c : Char) : Bool :=
  c == ' ' || c == '\t' || c == '\n' || c == '\r' || c == '\x0b' || c == '\x0c'

/-- Python `str.strip()`: drop whitespace from both ends. -/
def pyStrip (l : List Char) : List Char :=
  ((l.dropWhile pySpace).reverse.dropWhile pySpace).reverse

/-- Python `str.lower` on a single character (ASCII letters). -/
def pyLowerChar (c : Char) : Char :=
  if 'A' ≤ c ∧ c ≤ 'Z' then Char.ofNat (c.toNat + 32) else c

/-- Python `str.upper` on a single character (ASCII letters). -/
def pyUpperChar (c : Char) : Char :=
  if 'a' ≤ c ∧ c ≤ 'z' then Char.ofNat (c.toNat - 32) else c

/-- Python `str.lower()`. -/
def pyLower (l : List Char) : List Char := l.map pyLowerChar

/-- Python `s.startswith(p)`: first argument is the pattern. -/
def pyStartsWith : List Char → List Char → Bool
  | [], _ => true
  | _ :: _, [] => false
  | p :: ps, c :: cs => p == c && pyStartsWith ps cs

/-- Python `content.split(sep_newline)`, i.e. `split('\n')`. -/
def splitOnNl : List Char → List (List Char)
  | [] => [[]]
  | c :: rest =>
    if c = '\n' then [] :: splitOnNl rest
    else
      match splitOnNl rest with
      | [] => [[c]]
      | h :: t => (c :: h) :: t

/-- Python `line.split(sep, 1)[1]`: the remainder after the first occurrence
of `sep`; `none` models the `IndexError` raised when `sep` is absent. -/
def splitAfterFirst (sep : List Char) : List Char → Option (List Char)
  | [] => none
  | c :: rest =>
    if pyStartsWith sep (c :: rest) then some ((c :: rest).drop sep.length)
    else splitAfterFirst sep rest

/-- Python `line.find(c)` for a single character, used only under a
containment guard (so the `-1` not-found result is never consumed; we return
the list length there, which also never matches the guard). -/
def firstIdx (c : Char) : List Char → Nat
  | [] => 0
  | a :: rest => if a = c then 0 else firstIdx c rest + 1

/-- Python `s.find(sub)` for a multi-character pattern, as an `Option`
(`none` models the `-1` not-found result). -/
def findSeq (sep : List Char) : List Char → Option Nat
  | [] => if sep = [] then some 0 else none
  | c :: rest =>
    if pyStartsWith sep (c :: rest) then some 0
    else (findSeq sep rest).map (· + 1)

/-- Python `s.split(sep)` for a multi-character separator (the program only
calls it with non-empty separators; an empty separator returns the input
unsplit, while Python would raise). -/
def splitSeq (sep : List Char) (l : List Char) : List (List Char) :=
  match l with
  | [] => [[]]
  | c :: rest =>
    if sep ≠ [] ∧ pyStartsWith sep (c :: rest) then
      [] :: splitSeq sep (rest.drop (sep.length - 1))
    else
      match splitSeq sep rest with
      | [] => [[c]]
      | h :: t => (c :: h) :: t
termination_by l.length
decreasing_by
  · simp only [List.length_cons, List.length_drop]; omega
  · simp only [List.length_cons]; omega

/-- Python `s.replace(old, new)` for a non-empty `old` (the program only
replaces the non-empty patterns `".md"` and `"_"`). -/
def replaceSeq (sep repl : List Char) (l : List Char) : List Char :=
  match l with
  | [] => []
  | c :: rest =>
    if sep ≠ [] ∧ pyStartsWith sep (c :: rest) then
      repl ++ replaceSeq sep repl (rest.drop (sep.length - 1))
    else c :: replaceSeq sep repl rest
termination_by l.length
decreasing_by
  · simp only [List.length_cons, List.length_drop]; omega
  · simp only [List.length_cons]; omega

/-- Worker for `pyTitle`: the flag records whether the previous character
was a letter. -/
def pyTitleGo : Bool → List Char → List Char
  | _, [] => []
  | prevAlpha, c :: rest =>
    if c.isAlpha then
      (if prevAlpha then pyLowerChar c else pyUpperChar c) :: pyTitleGo true rest
    else c :: pyTitleGo false rest

/-- Python `str.title()` (ASCII letters). -/
def pyTitle (l : List Char) : List Char := pyTitleGo false l

/-- Python `s.endswith(pat)`. -/
def pyEndsWith (pat l : List Char) : Bool := pyStartsWith pat.reverse l.reverse

/-- Lexicographic order on character lists, as used by Python's `sorted`
on the keys of a dict. -/
def charListLe : List Char → List Char → Bool
  | [], _ => true
  | _ :: _, [] => false
  | a :: as, b :: bs => if a = b then charListLe as bs else decide (a < b)

/-- One `examples` entry of a problem record.  `parse_examples` builds
entries without an `explanation` key, hence the `Option`. -/
structure ProblemExample where
  input : List Char
  output : List Char
  explanation : Option (List Char)
deriving DecidableEq

/-- The `topics` field of an input record: the source tolerates both a list
and a single string (`isinstance(problem['topics'], list)`). -/
inductive TopicsField where
  | list (ts : List (List Char))
  | single (t : List Char)
deriving DecidableEq

/-- An input problem record as consumed by `process_leetcode_data` (the
keys read by the source; `companies`, `examples`, `constraints` are read
with `.get` and modelled with empty-list defaults already applied). -/
structure Problem where
  id : Nat
  title : List Char
  description : List Char
  difficulty : List Char
  topics : TopicsField
  companies : List (List Char)
  examples : List ProblemExample
  constraints : List (List Char)
deriving DecidableEq

/-- A processed (output) problem record, as built by
`process_leetcode_data`. -/
structure Processed where
  id : Nat
  title : List Char
  description : List Char
  difficulty : List Char
  topics : List (List Char)
  companies : List (List Char)
  examples : List ProblemExample
  constraints : List (List Char)
  leetcode_id : Nat
  premium : Bool
  acceptance_rate : Rat
deriving DecidableEq

/-- The company-mappings dict, as an insertion-ordered association list. -/
abbrev CompanyMapping := List (List Char × List (List Char))

/-- The marker `"- ["`. -/
def markerDash : List Char := chars ("- [")

/-- The marker `"* ["`. -/
def markerStar : List Char := chars ("* [")

/-- The numbered marker `"d. "` for a digit `d`. -/
def numMarker (d : Char) : List Char := [d, '.', ' ']

/-- The prefixes of line 261 of the source:
`['- [', '* [', '1. ', '2. ', '3. ']`. -/
def candidateMarkers : List (List Char) :=
  [markerDash, markerStar, numMarker '1', numMarker '2', numMarker '3']

/-- The prefixes of line 270 of the source: `('1. ', ..., '9. ')`. -/
def numberedMarkers : List (List Char) :=
  [numMarker '1', numMarker '2', numMarker '3', numMarker '4', numMarker '5',
   numMarker '6', numMarker '7', numMarker '8', numMarker '9']

/-- The candidate test of line 261:
`any(line.startswith(prefix) for prefix in ['- [', '* [', '1. ', '2. ', '3. '])`. -/
def isCandidateLine (line : List Char) : Bool :=
  candidateMarkers.any (fun p => pyStartsWith p line)

/-- One iteration of the loop of `extract_problems_from_markdown`
(lines 254-274): the titles contributed by one raw line (`[]` or a
singleton); `none` models an uncaught exception. -/
def processLine (raw : List Char) : Option (List (List Char)) :=
  let line := pyStrip raw
  if isCandidateLine line then
    if '[' ∈ line ∧ ']' ∈ line then
      let start := firstIdx '[' line + 1
      let stop := firstIdx ']' line
      if 0 < start ∧ start < stop then
        let t := pyStrip ((line.drop start).take (stop - start))
        if t ≠ [] ∧ 3 < t.length then some [t] else some []
      else some []
    else if numberedMarkers.any (fun p => pyStartsWith p line) then
      match splitAfterFirst ['.', ' '] line with
      | none => none
      | some r =>
        let t := pyStrip r
        if t ≠ [] ∧ 3 < t.length then some [t] else some []
    else some []
  else some []

/-- Fold of `processLine` over the lines, accumulating titles in order. -/
def extractLines : List (List Char) → Option (List (List Char))
  | [] => some []
  | l :: ls =>
    (processLine l).bind fun ts => (extractLines ls).bind fun rest => some (ts ++ rest)

/-- The source's `extract_problems_from_markdown` (lines 249-276); `none`
models the function raising an exception. -/
def extract_problems_from_markdown (content : List Char) : Option (List (List Char)) :=
  extractLines (splitOnNl content)

/-- Python substring test `sub in s` (contiguous substring). -/
def pySubstr (sub : List Char) : List Char → Bool
  | [] => decide (sub = [])
  | c :: rest => pyStartsWith sub (c :: rest) || pySubstr sub rest

/-- The matching test of line 292 of the source:
`problem['title'].lower() in mapped_problem.lower() or mapped_problem.lower() in problem['title'].lower()`. -/
def titleMatch (pt mt : List Char) : Bool :=
  pySubstr (pyLower pt) (pyLower mt) || pySubstr (pyLower mt) (pyLower pt)

/-- Python `set.add` on a set modelled as a duplicate-free list. -/
def addCompany (s : List (List Char)) (c : List Char) : List (List Char) :=
  if c ∈ s then s else s ++ [c]

/-- Lines 287-293 of the source: `enhanced_companies = set(problem.get('companies', []))`
followed by the nested matching loop adding companies from the mappings. -/
def enhancedCompanies (title : List Char) (baseline : List (List Char))
    (mappings : CompanyMapping) : List (List Char) :=
  mappings.foldl
    (fun acc cm => if cm.2.any (fun mt => titleMatch title mt) then addCompany acc cm.1 else acc)
    baseline.dedup

/-- Lines 333-343 of the source: `normalize_difficulty`. -/
def normalize_difficulty (difficulty : List Char) : List Char :=
  if pyStrip (pyLower difficulty) = chars ("easy") ∨ pyStrip (pyLower difficulty) = chars ("1") then
    chars ("easy")
  else if pyStrip (pyLower difficulty) = chars ("medium") ∨ pyStrip (pyLower difficulty) = chars ("2") then
    chars ("medium")
  else if pyStrip (pyLower difficulty) = chars ("hard") ∨ pyStrip (pyLower difficulty) = chars ("3") then
    chars ("hard")
  else chars ("medium")

/-- Line 300 of the source:
`problem['topics'] if isinstance(problem['topics'], list) else [problem['topics']]`. -/
def topicsAsList : TopicsField → List (List Char)
  | .list ts => ts
  | .single t => [t]

/-- Lines 278-312 of the source: `process_leetcode_data`.  With well-typed
records no statement of the `try` block can raise, so the function is total
and the `except` branch is unreachable. -/
def process_leetcode_data (problems : List Problem) (mappings : CompanyMapping) : List Processed :=
  problems.map (fun p =>
    { id := p.id
      title := p.title
      description := p.description
      difficulty := normalize_difficulty p.difficulty
      topics := topicsAsList p.topics
      companies := enhancedCompanies p.title p.companies mappings
      examples := p.examples
      constraints := p.constraints
      leetcode_id := p.id
      premium := false
      acceptance_rate := 0 })

/-- Lines 365-389 of the source: `parse_examples`. -/
def parse_examples (s : List Char) : List ProblemExample :=
  if s = [] ∨ s = chars ("nan") then []
  else if (findSeq (chars ("Input:")) s).isSome ∧ (findSeq (chars ("Output:")) s).isSome then
    (((splitSeq (chars ("Example")) s).drop 1).foldl
      (fun acc part =>
        match findSeq (chars ("Input:")) part, findSeq (chars ("Output:")) part with
        | some istart, some ostart =>
          if istart + 6 < ostart then
            acc ++ [{ input := pyStrip ((part.drop (istart + 6)).take (ostart - (istart + 6)))
                      output := pyStrip (part.drop (ostart + 7))
                      explanation := none }]
          else acc
        | _, _ => acc)
      []).take 3
  else []

/-- Lines 391-403 of the source: `parse_constraints`. -/
def parse_constraints (s : List Char) : List (List Char) :=
  if s = [] ∨ s = chars ("nan") then []
  else
    ((splitOnNl s).foldl
      (fun acc line =>
        if pyStrip line ≠ [] ∧ 5 < (pyStrip line).length then acc ++ [pyStrip line] else acc)
      []).take 5

/-- Failure classes of the network layer of `download_company_mappings`. -/
inductive NetErr where
  | listingFailed
  | fetchFailed
  | extractFailed
deriving DecidableEq

/-- One entry of the GitHub directory-listing response:
`{'type': ..., 'name': ..., 'download_url': ...}`. -/
structure FileEntry where
  ftype : List Char
  name : List Char
  download_url : List Char
deriving DecidableEq

/-- Python dict assignment `company_mappings[company_name] = problems` on an
association list. -/
def setKey (m : CompanyMapping) (k : List Char) (v : List (List Char)) : CompanyMapping :=
  if m.any (fun p => p.1 == k) then m.map (fun p => if p.1 = k then (k, v) else p)
  else m ++ [(k, v)]

/-- One iteration of the file loop of `download_company_mappings`
(lines 221-240), in `Except` so that an exception propagates to the
surrounding `try`. -/
def stepFile (fetch : List Char → Except NetErr (Nat × List Char))
    (acc : CompanyMapping) (fi : FileEntry) : Except NetErr CompanyMapping :=
  if fi.ftype = chars ("file") ∧ pyEndsWith (chars (".md")) fi.name then
    let company := pyTitle (replaceSeq (chars ("_")) (chars (" ")) (replaceSeq (chars (".md")) [] fi.name))
    if pyLower company = chars ("readme") ∨ pyLower company = chars ("license") then pure acc
    else
      match fetch fi.download_url with
      | .error e => .error e
      | .ok (status, content) =>
        if status = 200 then
          match extract_problems_from_markdown content with
          | none => .error NetErr.extractFailed
          | some probs => if probs ≠ [] then pure (setKey acc company probs) else pure acc
        else pure acc
  else pure acc

/-- The body of the `try` block of `download_company_mappings` after the
listing succeeded. -/
def downloadCore (fetch : List Char → Except NetErr (Nat × List Char))
    (files : List FileEntry) : Except NetErr CompanyMapping :=
  files.foldlM (stepFile fetch) []

/-- Lines 204-247 of the source: `download_company_mappings`.  The two kinds
of network calls are its environment: `listing` is the result of the
directory-listing request (including `raise_for_status` and JSON parsing),
`fetch` returns a status code and body per `download_url`.  The outer
`try`/`except` turns any failure into the empty mapping. -/
def download_company_mappings (listing : Except NetErr (List FileEntry))
    (fetch : List Char → Except NetErr (Nat × List Char)) : CompanyMapping :=
  match listing.bind (fun files => downloadCore fetch files) with
  | .ok m => m
  | .error _ => []

/-- Data computed and printed by `generate_summary` (lines 418-459); the
percentages are exact rationals standing for Python's float division. -/
structure SummaryData where
  total : Nat
  difficultyStats : List (List Char × Nat × Rat)
  topCompanies : List (List Char × Nat)
  topTopics : List (List Char × Nat)
deriving DecidableEq

/-- Python `counts[k] = counts.get(k, 0) + 1` on an insertion-ordered
association list. -/
def bumpCount (m : List (List Char × Nat)) (k : List Char) : List (List Char × Nat) :=
  match m with
  | [] => [(k, 1)]
  | (k2, v) :: rest => if k2 = k then (k2, v + 1) :: rest else (k2, v) :: bumpCount rest k

/-- Lines 427-430: the difficulty histogram. -/
def difficultyCounts (problems : List Processed) : List (List Char × Nat) :=
  problems.foldl (fun m p => bumpCount m p.difficulty) []

/-- Lines 438-441: the company histogram. -/
def companyCounts (problems : List Processed) : List (List Char × Nat) :=
  problems.foldl (fun m p => p.companies.foldl bumpCount m) []

/-- Lines 450-453: the topic histogram. -/
def topicCounts (problems : List Processed) : List (List Char × Nat) :=
  problems.foldl (fun m p => p.topics.foldl bumpCount m) []

/-- Division as used at line 434, `none` modelling `ZeroDivisionError`. -/
def safeDiv (a b : Rat) : Option Rat := if b = 0 then none else some (a / b)

/-- The loop of lines 433-435: one percentage per histogram entry. -/
def statsDivide (len : Rat) : List (List Char × Nat) → Option (List (List Char × Nat × Rat))
  | [] => some []
  | (k, v) :: rest =>
    match safeDiv (v : Rat) len, statsDivide len rest with
    | some q, some r => some ((k, v, q * 100) :: r)
    | _, _ => none

/-- Python `sorted(d.items())`: stable sort by key. -/
def sortByKey (m : List (List Char × Nat)) : List (List Char × Nat) :=
  List.insertionSort (fun a b => charListLe a.1 b.1 = true) m

/-- Python `sorted(items, key=count, reverse=True)`: stable sort by count,
descending. -/
def sortByCountDesc (m : List (List Char × Nat)) : List (List Char × Nat) :=
  List.insertionSort (fun a b => b.2 ≤ a.2) m

/-- Lines 418-459 of the source: `generate_summary` as the data it prints;
`none` models the function raising.  The company and topic sections are
guarded by `if company_counts:` / `if topic_counts:` in the source and the
empty list models the skipped sections. -/
def generate_summary (problems : List Processed) : Option SummaryData :=
  match statsDivide (problems.length : Rat) (sortByKey (difficultyCounts problems)) with
  | none => none
  | some dstats =>
    some { total := problems.length
           difficultyStats := dstats
           topCompanies :=
             if companyCounts problems ≠ [] then (sortByCountDesc (companyCounts problems)).take 10
             else []
           topTopics :=
             if topicCounts problems ≠ [] then (sortByCountDesc (topicCounts problems)).take 10
             else [] }

/-- A sample example value for concrete test records. -/
def wExample : ProblemExample :=
  { input := chars ("i"), output := chars ("o"), explanation := none }

/-- A concrete record with four examples and six constraints. -/
def cexProblem : Problem :=
  { id := 1
    title := chars ("Two Sum")
    description := chars ("d")
    difficulty := chars ("Easy")
    topics := TopicsField.list [chars ("Array")]
    companies := [chars ("Amazon")]
    examples := [wExample, wExample, wExample, wExample]
    constraints := [chars ("123456"), chars ("234567"), chars ("345678"),
                    chars ("456789"), chars ("567891"), chars ("678912")] }

/-- A concrete record used to instantiate frame/monotonicity theorems. -/
def wProblem : Problem :=
  { id := 20
    title := chars ("Valid Parentheses")
    description := chars ("Given a string s ...")
    difficulty := chars ("Easy")
    topics := TopicsField.list [chars ("String"), chars ("Stack")]
    companies := [chars ("Amazon"), chars ("Google")]
    examples := [wExample]
    constraints := [chars ("1 <= s.length <= 10000")] }

/-- A fetch stub that always fails. -/
def wfetch : List Char → Except NetErr (Nat × List Char) :=
  fun _ => Except.error NetErr.fetchFailed

lemma normalize_difficulty_cases (d : List Char) :
    normalize_difficulty d = chars ("easy") ∨ normalize_difficulty d = chars ("medium") ∨
      normalize_difficulty d = chars ("hard") := by
  unfold normalize_difficulty
  split_ifs <;> simp

/-- C4: `normalize_difficulty` always returns one of `easy`, `medium`,
`hard`; after lower-casing and trimming, `easy`/`1` map to `easy`,
`medium`/`2` to `medium`, `hard`/`3` to `hard`, and anything else maps to
`medium` without an error. -/
theorem normalize_difficulty_spec (d : List Char) :
    (normalize_difficulty d = chars ("easy") ∨ normalize_difficulty d = chars ("medium") ∨
      normalize_difficulty d = chars ("hard"))
    ∧ ((pyStrip (pyLower d) = chars ("easy") ∨ pyStrip (pyLower d) = chars ("1")) →
        normalize_difficulty d = chars ("easy"))
    ∧ ((pyStrip (pyLower d) = chars ("medium") ∨ pyStrip (pyLower d) = chars ("2")) →
        normalize_difficulty d = chars ("medium"))
    ∧ ((pyStrip (pyLower d) = chars ("hard") ∨ pyStrip (pyLower d) = chars ("3")) →
        normalize_difficulty d = chars ("hard"))
    ∧ ((pyStrip (pyLower d) ≠ chars ("easy") ∧ pyStrip (pyLower d) ≠ chars ("1") ∧
        pyStrip (pyLower d) ≠ chars ("medium") ∧ pyStrip (pyLower d) ≠ chars ("2") ∧
        pyStrip (pyLower d) ≠ chars ("hard") ∧ pyStrip (pyLower d) ≠ chars ("3")) →
        normalize_difficulty d = chars ("medium")) := by
  refine ⟨normalize_difficulty_cases d, ?_, ?_, ?_, ?_⟩
  · intro h
    unfold normalize_difficulty
    rw [if_pos h]
  · intro h
    have hne : ¬(pyStrip (pyLower d) = chars ("easy") ∨ pyStrip (pyLower d) = chars ("1")) := by
      rcases h with h | h <;> rw [h] <;> decide
    unfold normalize_difficulty
    rw [if_neg hne, if_pos h]
  · intro h
    have hne1 : ¬(pyStrip (pyLower d) = chars ("easy") ∨ pyStrip (pyLower d) = chars ("1")) := by
      rcases h with h | h <;> rw [h] <;> decide
    have hne2 : ¬(pyStrip (pyLower d) = chars ("medium") ∨ pyStrip (pyLower d) = chars ("2")) := by
      rcases h with h | h <;> rw [h] <;> decide
    unfold normalize_difficulty
    rw [if_neg hne1, if_neg hne2, if_pos h]
  · rintro ⟨h1, h2, h3, h4, h5, h6⟩
    unfold normalize_difficulty
    rw [if_neg (by tauto), if_neg (by tauto), if_neg (by tauto)]

/-- C4 witness: `"  HARD "` trims and lower-cases to `hard` and is
normalized to `hard`. -/
theorem normalize_difficulty_spec_witness :
    (pyStrip (pyLower (chars ("  HARD "))) = chars ("hard") ∨
      pyStrip (pyLower (chars ("  HARD "))) = chars ("3"))
    ∧ normalize_difficulty (chars ("  HARD ")) = chars ("hard") :=
  ⟨Or.inl (by decide), (normalize_difficulty_spec (chars ("  HARD "))).2.2.2.1 (Or.inl (by decide))⟩

/-- C10: `normalize_difficulty` is idempotent: each of its three possible
outputs normalizes to itself. -/
theorem normalize_difficulty_idempotent (d : List Char) :
    normalize_difficulty (normalize_difficulty d) = normalize_difficulty d := by
  rcases normalize_difficulty_cases d with h | h | h <;> rw [h] <;> decide

/-- C5 (amended): the free-text parsers cap their outputs — at most 3
examples and at most 5 constraints — for every input string. -/
theorem parse_caps_amended (s : List Char) :
    (parse_examples s).length ≤ 3 ∧ (parse_constraints s).length ≤ 5 := by
  constructor
  · unfold parse_examples
    split_ifs <;> simp [List.length_take]
  · unfold parse_constraints
    split_ifs <;> simp [List.length_take]

/-- C5 counterexample: `process_leetcode_data` copies `examples` and
`constraints` through unchanged, so a record entering with 4 examples and 6
constraints leaves with 4 examples and 6 constraints — the claimed caps do
not hold for processed records. -/
theorem process_uncapped_counterexample :
    (process_leetcode_data [cexProblem] []).map
        (fun r => (r.examples.length, r.constraints.length)) = [(4, 6)] := by
  decide

lemma mem_addCompany (s : List (List Char)) (a c : List Char) :
    c ∈ addCompany s a ↔ c ∈ s ∨ c = a := by
  unfold addCompany
  split_ifs with h
  · constructor
    · exact Or.inl
    · rintro (hc | rfl)
      · exact hc
      · exact h
  · simp

lemma mem_enh_fold (title : List Char) (ms : CompanyMapping) (acc : List (List Char))
    (c : List Char) :
    c ∈ ms.foldl
        (fun acc cm => if cm.2.any (fun mt => titleMatch title mt) then addCompany acc cm.1 else acc)
        acc
      ↔ c ∈ acc ∨ ∃ p ∈ ms, p.1 = c ∧ p.2.any (fun mt => titleMatch title mt) = true := by
  induction ms generalizing acc with
  | nil => simp
  | cons m ms ih =>
    simp only [List.foldl_cons, ih, List.mem_cons]
    by_cases h : m.2.any (fun mt => titleMatch title mt) = true
    · rw [if_pos h]
      simp only [mem_addCompany]
      constructor
      · rintro ((hc | rfl) | ⟨p, hp, h1, h2⟩)
        · exact Or.inl hc
        · exact Or.inr ⟨m, Or.inl rfl, rfl, h⟩
        · exact Or.inr ⟨p, Or.inr hp, h1, h2⟩
      · rintro (hc | ⟨p, (rfl | hp), h1, h2⟩)
        · exact Or.inl (Or.inl hc)
        · exact Or.inl (Or.inr h1.symm)
        · exact Or.inr ⟨p, hp, h1, h2⟩
    · rw [if_neg h]
      constructor
      · rintro (hc | ⟨p, hp, h1, h2⟩)
        · exact Or.inl hc
        · exact Or.inr ⟨p, Or.inr hp, h1, h2⟩
      · rintro (hc | ⟨p, (rfl | hp), h1, h2⟩)
        · exact Or.inl hc
        · exact absurd h2 h
        · exact Or.inr ⟨p, hp, h1, h2⟩

/-- C2: a company from the mappings is attached to a problem exactly when
some candidate title of that company matches: the problem title lower-cased
is a substring of the candidate lower-cased, or conversely; moreover the
matching rule is symmetric in its two arguments.  (Companies in the
record's own baseline list are also kept, per C3.) -/
theorem enrichment_matching_rule (title : List Char) (baseline : List (List Char))
    (ms : CompanyMapping) (c : List Char) :
    (c ∈ enhancedCompanies title baseline ms ↔
      c ∈ baseline ∨ ∃ p ∈ ms, p.1 = c ∧ ∃ mt ∈ p.2,
        (pySubstr (pyLower title) (pyLower mt) = true ∨
         pySubstr (pyLower mt) (pyLower title) = true))
    ∧ ∀ a b : List Char, titleMatch a b = titleMatch b a := by
  constructor
  · unfold enhancedCompanies
    rw [mem_enh_fold]
    simp [List.any_eq_true, titleMatch, Bool.or_eq_true]
  · intro a b
    simp [titleMatch, Bool.or_comm]

/-- C2 witness: the spec's example scenario — catalog title `Two Sum`,
mapped candidate `1. Two Sum Problem` — attaches the company. -/
theorem enrichment_matching_rule_witness :
    chars ("Amazon") ∈ enhancedCompanies (chars ("Two Sum")) []
      [(chars ("Amazon"), [chars ("1. Two Sum Problem")])] := by
  refine ((enrichment_matching_rule (chars ("Two Sum")) []
    [(chars ("Amazon"), [chars ("1. Two Sum Problem")])] (chars ("Amazon"))).1).mpr ?_
  exact Or.inr ⟨(chars ("Amazon"), [chars ("1. Two Sum Problem")]), by simp, rfl,
    chars ("1. Two Sum Problem"), by simp, Or.inl (by decide)⟩

/-- C3: enrichment is monotonic — each processed record's company set
contains the record's baseline companies — and with an empty mapping the
processed set equals exactly the baseline set. -/
theorem enrichment_monotonic (ps : List Problem) (ms : CompanyMapping) (i : Nat)
    (hi : i < ps.length) (ho : i < (process_leetcode_data ps ms).length) :
    (∀ c, c ∈ (ps.get ⟨i, hi⟩).companies →
        c ∈ ((process_leetcode_data ps ms).get ⟨i, ho⟩).companies)
    ∧ (ms = [] → ∀ c,
        (c ∈ ((process_leetcode_data ps ms).get ⟨i, ho⟩).companies ↔
          c ∈ (ps.get ⟨i, hi⟩).companies)) := by
  have hget : (process_leetcode_data ps ms).get ⟨i, ho⟩ =
      (fun p : Problem =>
        ({ id := p.id
           title := p.title
           description := p.description
           difficulty := normalize_difficulty p.difficulty
           topics := topicsAsList p.topics
           companies := enhancedCompanies p.title p.companies ms
           examples := p.examples
           constraints := p.constraints
           leetcode_id := p.id
           premium := false
           acceptance_rate := 0 } : Processed)) (ps.get ⟨i, hi⟩) := by
    simp [process_leetcode_data, List.get_eq_getElem, List.getElem_map]
  rw [hget]
  constructor
  · intro c hc
    show c ∈ enhancedCompanies _ _ _
    unfold enhancedCompanies
    exact (mem_enh_fold _ _ _ _).mpr (Or.inl (List.mem_dedup.mpr hc))
  · rintro rfl c
    show c ∈ enhancedCompanies _ _ _ ↔ _
    unfold enhancedCompanies
    simp [List.mem_dedup]

/-- C3 witness: with the empty mapping, `wProblem`'s baseline company
`Amazon` is kept and the processed set matches the baseline. -/
theorem enrichment_monotonic_witness :
    chars ("Amazon") ∈ ((process_leetcode_data [wProblem] []).get ⟨0, by decide⟩).companies :=
  (enrichment_monotonic [wProblem] [] 0 (by decide) (by decide)).1 (chars ("Amazon")) (by decide)

/-- C9: `process_leetcode_data` maps its input one-to-one in order: the
output has the input's length and, position by position, preserves `id`,
`title` and `description`, sets `leetcode_id` to `id`, `premium` to
`false` and `acceptance_rate` to `0.0`. -/
theorem process_frame_fields (ps : List Problem) (ms : CompanyMapping) :
    (process_leetcode_data ps ms).length = ps.length ∧
    ∀ i (hi : i < ps.length) (ho : i < (process_leetcode_data ps ms).length),
      ((process_leetcode_data ps ms).get ⟨i, ho⟩).id = (ps.get ⟨i, hi⟩).id ∧
      ((process_leetcode_data ps ms).get ⟨i, ho⟩).title = (ps.get ⟨i, hi⟩).title ∧
      ((process_leetcode_data ps ms).get ⟨i, ho⟩).description = (ps.get ⟨i, hi⟩).description ∧
      ((process_leetcode_data ps ms).get ⟨i, ho⟩).leetcode_id = (ps.get ⟨i, hi⟩).id ∧
      ((process_leetcode_data ps ms).get ⟨i, ho⟩).premium = false ∧
      ((process_leetcode_data ps ms).get ⟨i, ho⟩).acceptance_rate = 0 := by
  constructor
  · simp [process_leetcode_data]
  · intro i hi ho
    simp [process_leetcode_data, List.get_eq_getElem, List.getElem_map]

/-- C9 witness: the frame properties evaluated on a concrete record and the
empty mapping. -/
theorem process_frame_fields_witness :
    ((process_leetcode_data [wProblem] []).get ⟨0, by decide⟩).id =
        (([wProblem] : List Problem).get ⟨0, by decide⟩).id ∧
      ((process_leetcode_data [wProblem] []).get ⟨0, by decide⟩).premium = false := by
  have h := (process_frame_fields [wProblem] []).2 0 (by decide) (by decide)
  exact ⟨h.1, h.2.2.2.2.1⟩

/-- C6: whenever the listing request or any per-file fetch/extraction step
fails (the whole `try` body ends in an error), `download_company_mappings`
returns the empty mapping instead of propagating the failure. -/
theorem download_mappings_degraded (listing : Except NetErr (List FileEntry))
    (fetch : List Char → Except NetErr (Nat × List Char)) (e : NetErr)
    (h : listing.bind (fun files => downloadCore fetch files) = Except.error e) :
    download_company_mappings listing fetch = [] := by
  unfold download_company_mappings
  rw [h]

/-- C6 witness: a failed listing request yields the empty mapping. -/
theorem download_mappings_degraded_witness :
    ((Except.error NetErr.listingFailed : Except NetErr (List FileEntry)).bind
        (fun files => downloadCore wfetch files) = Except.error NetErr.listingFailed)
    ∧ download_company_mappings (Except.error NetErr.listingFailed) wfetch = [] :=
  ⟨rfl, download_mappings_degraded (Except.error NetErr.listingFailed) wfetch
          NetErr.listingFailed rfl⟩

lemma statsDivide_isSome (len : Rat) (hlen : len ≠ 0) (l : List (List Char × Nat)) :
    (statsDivide len l).isSome := by
  induction l with
  | nil => simp [statsDivide]
  | cons kv rest ih =>
    obtain ⟨k, v⟩ := kv
    obtain ⟨r, hr⟩ := Option.isSome_iff_exists.mp ih
    simp [statsDivide, safeDiv, hlen, hr]

/-- C8: `generate_summary` never fails, for any list of processed records
including the empty one: the difficulty histogram of an empty list is empty,
so its per-entry division never runs with a zero total, and the company and
topic sections are skipped when their histograms are empty. -/
theorem generate_summary_no_error (ps : List Processed) :
    (generate_summary ps).isSome := by
  have key : (statsDivide (ps.length : Rat) (sortByKey (difficultyCounts ps))).isSome := by
    cases ps with
    | nil => decide
    | cons p rest =>
      have hlen : (((p :: rest).length : Nat) : Rat) ≠ 0 := by
        simp only [List.length_cons, Nat.cast_add, Nat.cast_one]
        positivity
      exact statsDivide_isSome _ hlen _
  obtain ⟨v, hv⟩ := Option.isSome_iff_exists.mp key
  simp [generate_summary, hv]

lemma pyStartsWith_iff (p l : List Char) : pyStartsWith p l = true ↔ ∃ t, l = p ++ t := by
  induction p generalizing l with
  | nil =>
    simp [pyStartsWith]
  | cons a as ih =>
    cases l with
    | nil => simp [pyStartsWith]
    | cons c cs =>
      simp only [pyStartsWith, Bool.and_eq_true, beq_iff_eq, ih, List.cons_append,
        List.cons.injEq]
      constructor
      · rintro ⟨h1, t, h2⟩
        exact ⟨t, h1.symm, h2⟩
      · rintro ⟨t, h1, h2⟩
        exact ⟨h1.symm, t, h2⟩

lemma splitAfterFirst_dotSpace (d : Char) (t : List Char) (hd : d ≠ '.') :
    splitAfterFirst ['.', ' '] (d :: '.' :: ' ' :: t) = some t := by
  have h1 : (('.' : Char) == d) = false := by
    simp [Ne.symm hd]
  simp [splitAfterFirst, pyStartsWith, h1]

lemma processLine_numbered (raw : List Char) (d : Char) (t : List Char)
    (hd : d ≠ '.')
    (hgate : isCandidateLine (pyStrip raw) = true)
    (hnum : [d, '.', ' '] ∈ numberedMarkers)
    (hshape : pyStrip raw = d :: '.' :: ' ' :: t)
    (hnb : ¬('[' ∈ pyStrip raw ∧ ']' ∈ pyStrip raw)) :
    processLine raw =
      (if pyStrip t ≠ [] ∧ 3 < (pyStrip t).length then some [pyStrip t] else some []) := by
  have hsw : pyStartsWith [d, '.', ' '] (pyStrip raw) = true := by
    rw [hshape]
    exact (pyStartsWith_iff _ _).mpr ⟨t, rfl⟩
  have hany : numberedMarkers.any (fun p => pyStartsWith p (pyStrip raw)) = true :=
    List.any_eq_true.mpr ⟨[d, '.', ' '], hnum, hsw⟩
  have hsplit : splitAfterFirst ['.', ' '] (pyStrip raw) = some t := by
    rw [hshape]
    exact splitAfterFirst_dotSpace d t hd
  unfold processLine
  rw [if_pos hgate, if_neg hnb, if_pos hany, hsplit]

lemma processLine_isSome (raw : List Char) : (processLine raw).isSome := by
  by_cases h1 : isCandidateLine (pyStrip raw) = true
  case neg =>
    unfold processLine
    rw [if_neg h1]
    rfl
  by_cases h2 : '[' ∈ pyStrip raw ∧ ']' ∈ pyStrip raw
  · unfold processLine
    rw [if_pos h1, if_pos h2]
    dsimp only
    split_ifs <;> rfl
  by_cases h3 : numberedMarkers.any (fun p => pyStartsWith p (pyStrip raw)) = true
  case neg =>
    unfold processLine
    rw [if_pos h1, if_neg h2, if_neg h3]
    rfl
  obtain ⟨p, hp, hsw⟩ := List.any_eq_true.mp h3
  have hp9 : p = numMarker '1' ∨ p = numMarker '2' ∨ p = numMarker '3' ∨ p = numMarker '4' ∨
      p = numMarker '5' ∨ p = numMarker '6' ∨ p = numMarker '7' ∨ p = numMarker '8' ∨
      p = numMarker '9' := by
    simpa [numberedMarkers] using hp
  rcases hp9 with rfl | rfl | rfl | rfl | rfl | rfl | rfl | rfl | rfl <;>
    · obtain ⟨t, ht⟩ := (pyStartsWith_iff _ _).mp hsw
      rw [processLine_numbered raw _ t (by decide) h1 (by decide) ht h2]
      split_ifs <;> rfl

lemma extractLines_isSome (ls : List (List Char)) : (extractLines ls).isSome := by
  induction ls with
  | nil => rfl
  | cons l ls ih =>
    obtain ⟨ts, hts⟩ := Option.isSome_iff_exists.mp (processLine_isSome l)
    obtain ⟨rest, hrest⟩ := Option.isSome_iff_exists.mp ih
    simp [extractLines, hts, hrest]

lemma extractLines_mem (ls : List (List Char)) (raw : List Char) (hmem : raw ∈ ls)
    (out : List (List Char)) (hout : processLine raw = some out)
    (x : List Char) (hx : x ∈ out) :
    ∃ ts, extractLines ls = some ts ∧ x ∈ ts := by
  induction ls with
  | nil => cases hmem
  | cons l ls ih =>
    rcases List.mem_cons.mp hmem with h | h
    · subst h
      obtain ⟨rest, hrest⟩ := Option.isSome_iff_exists.mp (extractLines_isSome ls)
      exact ⟨out ++ rest, by simp [extractLines, hout, hrest], by simp [hx]⟩
    · obtain ⟨ts, hts, hxts⟩ := ih h
      obtain ⟨ts0, hts0⟩ := Option.isSome_iff_exists.mp (processLine_isSome l)
      exact ⟨ts0 ++ ts, by simp [extractLines, hts0, hts], by simp [hxts]⟩

/-- C7: `extract_problems_from_markdown` terminates and returns a list for
every input text — no modelled exception occurs, in particular not for the
empty string, lines with unmatched or reversed brackets, or numbered
markers not followed by a space. -/
theorem extract_total_no_exception (content : List Char) :
    ∃ ts, extract_problems_from_markdown content = some ts :=
  Option.isSome_iff_exists.mp (extractLines_isSome (splitOnNl content))

/-- C1 counterexample: the line `4. Reverse Integer` has a trimmed form
starting with `4. ` and a title longer than 3 characters, yet the extractor
yields nothing for it — the candidate gate of line 261 only admits
`1. `, `2. `, `3. ` among the numbered markers. -/
theorem extract_line4_counterexample :
    extract_problems_from_markdown (chars ("4. Reverse Integer")) = some [] ∧
      ¬∃ ts, extract_problems_from_markdown (chars ("4. Reverse Integer")) = some ts ∧
        chars ("Reverse Integer") ∈ ts := by
  have h : extract_problems_from_markdown (chars ("4. Reverse Integer")) = some [] := by decide
  refine ⟨h, ?_⟩
  rintro ⟨ts, hts, hmem⟩
  rw [h] at hts
  injection hts with h2
  subst h2
  cases hmem

/-- C1 (amended): a line passes the candidate gate exactly when its trimmed
form starts with `- [`, `* [`, `1. `, `2. ` or `3. ` (not `4. `-`9. `); a
non-candidate line contributes nothing, and every line of the input whose
trimmed form starts with `1. `, `2. ` or `3. `, does not contain both `[`
and `]`, and whose remainder after the marker trims to a title longer than
3 characters, has that title in the extractor's output. -/
theorem extract_numbered_line_amended (content raw : List Char)
    (hmem : raw ∈ splitOnNl content)
    (hpre : pyStartsWith (numMarker '1') (pyStrip raw) = true ∨
            pyStartsWith (numMarker '2') (pyStrip raw) = true ∨
            pyStartsWith (numMarker '3') (pyStrip raw) = true)
    (hnb : ¬('[' ∈ pyStrip raw ∧ ']' ∈ pyStrip raw))
    (hlen : 3 < (pyStrip ((pyStrip raw).drop 3)).length) :
    (∀ raw2 : List Char, isCandidateLine (pyStrip raw2) = false → processLine raw2 = some [])
    ∧ ∃ ts, extract_problems_from_markdown content = some ts ∧
        pyStrip ((pyStrip raw).drop 3) ∈ ts := by
  constructor
  · intro raw2 hc
    unfold processLine
    rw [if_neg (by simp [hc])]
  · have key : ∃ d t, d ≠ '.' ∧ [d, '.', ' '] ∈ candidateMarkers ∧
        [d, '.', ' '] ∈ numberedMarkers ∧ pyStrip raw = d :: '.' :: ' ' :: t := by
      rcases hpre with h | h | h <;>
        · obtain ⟨t, ht⟩ := (pyStartsWith_iff _ _).mp h
          exact ⟨_, t, by decide, by decide, by decide, ht⟩
    obtain ⟨d, t, hd, hcand, hnum, hshape⟩ := key
    have hgate : isCandidateLine (pyStrip raw) = true := by
      unfold isCandidateLine
      refine List.any_eq_true.mpr ⟨[d, '.', ' '], hcand, ?_⟩
      rw [hshape]
      exact (pyStartsWith_iff _ _).mpr ⟨t, rfl⟩
    have hdrop : (pyStrip raw).drop 3 = t := by rw [hshape]; rfl
    rw [hdrop] at hlen ⊢
    have hline : processLine raw = some [pyStrip t] := by
      rw [processLine_numbered raw d t hd hgate hnum hshape hnb,
        if_pos ⟨List.ne_nil_of_length_pos (by omega), hlen⟩]
    exact extractLines_mem (splitOnNl content) raw hmem [pyStrip t] hline (pyStrip t)
      (List.mem_singleton.mpr rfl)

/-- C1 witness: the single line `2. Two Sum` satisfies the amended
hypotheses and its title `Two Sum` is extracted. -/
theorem extract_numbered_line_amended_witness :
    (chars ("2. Two Sum") ∈ splitOnNl (chars ("2. Two Sum"))) ∧
      ∃ ts, extract_problems_from_markdown (chars ("2. Two Sum")) = some ts ∧
        pyStrip ((pyStrip (chars ("2. Two Sum"))).drop 3) ∈ ts :=
  ⟨by decide,
    (extract_numbered_line_amended (chars ("2. Two Sum")) (chars ("2. Two Sum"))
      (by decide) (Or.inr (Or.inl (by decide))) (by decide) (by decide)).2⟩
